import Mathlib

/-!
Verification development for the kasir-api repository: an in-memory CRUD
backend over two collections (categories and products), with a read-time
join that attaches a category name to each product.

The repository ships the category/product handler and service tests and the
service interfaces; the handler and service bodies themselves are not in
the source tree, so those operations are modelled from the specification,
pinned wherever possible by the behaviour the repository's own tests
assert. The product Create logic is present verbatim in the source (inlined
in TestCreateProduk, src/unnamed/part_001 lines 272-288) and is embedded
from there.

Integers are Go ints; no arithmetic here approaches overflow, so they are
embedded as Lean Int.
-/

namespace KasirAPI

/-- Category record (`models.Category`, JSON shape id, name, description). -/
structure Category where
  id : Int
  name : String
  description : String
deriving Repr, DecidableEq

/-- Product record as stored (`models.Product` fields id, name, price, stock,
category_id); `category_name` is derived at read time and never stored. -/
structure Product where
  id : Int
  name : String
  price : Int
  stock : Int
  categoryID : Int
deriving Repr, DecidableEq

/-- Product as returned by reads: the stored fields plus the derived
`category_name`. -/
structure ProductView where
  id : Int
  name : String
  price : Int
  stock : Int
  categoryID : Int
  categoryName : String
deriving Repr, DecidableEq

/-- From src/unnamed/part_001 lines 272-288 (the create handler body inlined
in TestCreateProduk): decode the body, set `produkBaru.ID = len(produk) + 1`,
append. No field validation of any kind is performed. Returns the new
collection and the record as stored. -/
def createProduk (ps : List Product) (b : Product) : List Product × Product :=
  (ps ++ [{ b with id := (ps.length : Int) + 1 }],
    { b with id := (ps.length : Int) + 1 })

/-- Modelled from the spec: `createCategory` (main package, missing from
src/) assigns the next id and appends, mirroring the product create code
inlined at src/unnamed/part_001 lines 272-288; TestCreateCategory (lines
40-69) pins that the first created category gets id 1 and is stored with
the supplied name and description, with no validation path exercised. -/
def createCategory (cs : List Category) (b : Category) : List Category × Category :=
  (cs ++ [{ b with id := (cs.length : Int) + 1 }],
    { b with id := (cs.length : Int) + 1 })

/-- Modelled from the spec: `getCategoryByID` scans for the first record
whose id matches (main package handler missing from src/; TestGetCategoryByID
and TestGetCategoryByIDNotFound pin found/not-found behaviour). -/
def findCategory (cs : List Category) (i : Int) : Option Category :=
  cs.find? (fun c => c.id == i)

/-- Modelled from the spec: `getProdukByID` scans for the first product whose
id matches (handler missing from src/; TestGetProdukByID and
TestGetProdukByIDNotFound pin found/not-found behaviour). -/
def findProduk (ps : List Product) (i : Int) : Option Product :=
  ps.find? (fun p => p.id == i)

/-- Modelled from the spec: the product service enrichment rule — look up
`category_id` in the category collection; if found take that category's
name, otherwise (including `category_id == 0`) the empty string. The first
matching category is taken. -/
def categoryNameFor (cs : List Category) (cid : Int) : String :=
  match cs.find? (fun c => c.id == cid) with
  | some c => c.name
  | none => ""

/-- Read-time view of a stored product: all stored fields unchanged plus the
derived category name. -/
def enrich (cs : List Category) (p : Product) : ProductView :=
  ⟨p.id, p.name, p.price, p.stock, p.categoryID, categoryNameFor cs p.categoryID⟩

/-- Modelled from the spec: product service `GetAll` (missing from src/)
returns every stored product enriched with its category name. -/
def productGetAll (cs : List Category) (ps : List Product) : List ProductView :=
  ps.map (enrich cs)

/-- Modelled from the spec: product service `GetByID` (missing from src/)
returns the first stored product with the given id, enriched, or nothing. -/
def productGetByID (cs : List Category) (ps : List Product) (i : Int) :
    Option ProductView :=
  (findProduk ps i).map (enrich cs)

/-- Replace the first category whose id matches by the given record. -/
def replaceFirstCategory (cs : List Category) (i : Int) (u : Category) :
    List Category :=
  match cs with
  | [] => []
  | c :: rest =>
      if c.id == i then u :: rest else c :: replaceFirstCategory rest i u

/-- Replace the first product whose id matches by the given record. -/
def replaceFirstProduk (ps : List Product) (i : Int) (u : Product) :
    List Product :=
  match ps with
  | [] => []
  | p :: rest =>
      if p.id == i then u :: rest else p :: replaceFirstProduk rest i u

/-- Modelled from the spec: `updateCategory` (missing from src/) targets the
record whose id equals the id parsed from the URL path, overwrites all its
fields except the id with the body's values, and fails with NotFound when no
record matches; the body's own id field is never consulted (TestUpdateCategory,
src/unnamed/part_001 lines 119-149, sends a body without an id to PUT 1 and
receives the updated record with id 1). -/
def updateCategory (cs : List Category) (urlId : Int) (b : Category) :
    Option (List Category × Category) :=
  if cs.any (fun c => c.id == urlId) then
    some (replaceFirstCategory cs urlId ⟨urlId, b.name, b.description⟩,
      ⟨urlId, b.name, b.description⟩)
  else none

/-- Modelled from the spec: `updateProduk` (missing from src/), as
`updateCategory`: target by URL id, overwrite all fields except id, NotFound
when absent (TestUpdateProduk and TestUpdateProdukNotFound,
src/unnamed/part_001 lines 351-405). -/
def updateProduk (ps : List Product) (urlId : Int) (b : Product) :
    Option (List Product × Product) :=
  if ps.any (fun p => p.id == urlId) then
    some (replaceFirstProduk ps urlId
        ⟨urlId, b.name, b.price, b.stock, b.categoryID⟩,
      ⟨urlId, b.name, b.price, b.stock, b.categoryID⟩)
  else none

/-- Remove the first category whose id matches. -/
def removeFirstCategory (cs : List Category) (i : Int) : List Category :=
  match cs with
  | [] => []
  | c :: rest => if c.id == i then rest else c :: removeFirstCategory rest i

/-- Remove the first product whose id matches. -/
def removeFirstProduk (ps : List Product) (i : Int) : List Product :=
  match ps with
  | [] => []
  | p :: rest => if p.id == i then rest else p :: removeFirstProduk rest i

/-- Modelled from the spec: `deleteCategory` (missing from src/) removes the
record with the given id or fails with NotFound (TestDeleteCategory,
src/unnamed/part_001 lines 175-204, pins that deleting id 1 from a
two-element collection leaves exactly the record with id 2). -/
def deleteCategory (cs : List Category) (i : Int) : Option (List Category) :=
  if cs.any (fun c => c.id == i) then some (removeFirstCategory cs i)
  else none

/-- Modelled from the spec: `deleteProduk` (missing from src/), as
`deleteCategory` (TestDeleteProduk and TestDeleteProdukNotFound,
src/unnamed/part_001 lines 407-456). -/
def deleteProduk (ps : List Product) (i : Int) : Option (List Product) :=
  if ps.any (fun p => p.id == i) then some (removeFirstProduk ps i)
  else none

/-- The global in-memory store: the `categories` and `produk` slices. -/
structure Store where
  categories : List Category
  produk : List Product
deriving Repr, DecidableEq

/-- One mutating API call. Bodies are the decoded JSON records; update and
delete carry the id parsed from the URL path. -/
inductive Op where
  | createCat (b : Category)
  | updateCat (urlId : Int) (b : Category)
  | deleteCat (urlId : Int)
  | createProd (b : Product)
  | updateProd (urlId : Int) (b : Product)
  | deleteProd (urlId : Int)
deriving Repr, DecidableEq

/-- Whether an operation is a delete. -/
def Op.isDelete : Op → Bool
  | .deleteCat _ => true
  | .deleteProd _ => true
  | _ => false

/-- Effect of one call on the store; a failed call (NotFound) leaves the
store unchanged. -/
def step (s : Store) : Op → Store
  | .createCat b => { s with categories := (createCategory s.categories b).1 }
  | .updateCat i b =>
      match updateCategory s.categories i b with
      | some (cs, _) => { s with categories := cs }
      | none => s
  | .deleteCat i =>
      match deleteCategory s.categories i with
      | some cs => { s with categories := cs }
      | none => s
  | .createProd b => { s with produk := (createProduk s.produk b).1 }
  | .updateProd i b =>
      match updateProduk s.produk i b with
      | some (ps, _) => { s with produk := ps }
      | none => s
  | .deleteProd i =>
      match deleteProduk s.produk i with
      | some ps => { s with produk := ps }
      | none => s

/-- The store reached from empty collections by a sequence of calls. -/
def run (ops : List Op) : Store :=
  ops.foldl step ⟨[], []⟩

/-- The id column a collection built by n successive creates carries:
1, 2, ..., n. -/
def seqIds (n : Nat) : List Int :=
  (List.range n).map (fun k => Int.ofNat k + 1)

/-- Invariant holding while no Delete has run: each collection's id column is
exactly 1..n. -/
def InvIds (s : Store) : Prop :=
  s.categories.map (fun c => c.id) = seqIds s.categories.length ∧
  s.produk.map (fun p => p.id) = seqIds s.produk.length

/-! ### Handler layer of the main package (global-slice handlers)

Each handler is modelled as returning the HTTP status code together with the
collection afterwards (and, for reads, the response body). A body of `none`
stands for a request body that failed to decode as JSON. -/

/-- Modelled from the spec: GET by id on categories — 200 with the record
when found, 404 otherwise (TestGetCategoryByID, TestGetCategoryByIDNotFound). -/
def getCategoryByIDHandler (cs : List Category) (i : Int) :
    Nat × Option Category :=
  match findCategory cs i with
  | some c => (200, some c)
  | none => (404, none)

/-- Modelled from the spec: GET by id on products — 200 with the enriched
record when found, 404 otherwise (TestGetProdukByID,
TestGetProdukByIDNotFound). -/
def getProdukByIDHandler (cs : List Category) (ps : List Product) (i : Int) :
    Nat × Option ProductView :=
  match productGetByID cs ps i with
  | some v => (200, some v)
  | none => (404, none)

/-- From src/unnamed/part_001 lines 272-288: the product create handler —
a body that fails to decode yields 400 with the collection untouched; any
decoded body is assigned id len+1 and appended, yielding 201. -/
def createProdukHandler (ps : List Product) (body : Option Product) :
    Nat × List Product :=
  match body with
  | none => (400, ps)
  | some b => (201, (createProduk ps b).1)

/-- Modelled from the spec: the category create handler, mirroring the
product create handler code at src/unnamed/part_001 lines 272-288
(TestCreateCategory pins success: 201 and the stored record). -/
def createCategoryHandler (cs : List Category) (body : Option Category) :
    Nat × List Category :=
  match body with
  | none => (400, cs)
  | some b => (201, (createCategory cs b).1)

/-- Modelled from the spec: PUT on a category — 400 on an undecodable body,
404 when the URL id is absent (collection untouched), otherwise 200 with the
record overwritten (TestUpdateCategory, TestUpdateCategoryNotFound). -/
def updateCategoryHandler (cs : List Category) (urlId : Int)
    (body : Option Category) : Nat × List Category :=
  match body with
  | none => (400, cs)
  | some b =>
      match updateCategory cs urlId b with
      | some (cs2, _) => (200, cs2)
      | none => (404, cs)

/-- Modelled from the spec: PUT on a product, as for categories
(TestUpdateProduk, TestUpdateProdukNotFound). -/
def updateProdukHandler (ps : List Product) (urlId : Int)
    (body : Option Product) : Nat × List Product :=
  match body with
  | none => (400, ps)
  | some b =>
      match updateProduk ps urlId b with
      | some (ps2, _) => (200, ps2)
      | none => (404, ps)

/-- Modelled from the spec: DELETE on a category — 404 when the id is absent
(collection untouched), 200 with the record removed otherwise
(TestDeleteCategory, TestDeleteCategoryNotFound). -/
def deleteCategoryHandler (cs : List Category) (i : Int) :
    Nat × List Category :=
  match deleteCategory cs i with
  | some cs2 => (200, cs2)
  | none => (404, cs)

/-- Modelled from the spec: DELETE on a product, as for categories
(TestDeleteProduk, TestDeleteProdukNotFound). -/
def deleteProdukHandler (ps : List Product) (i : Int) :
    Nat × List Product :=
  match deleteProduk ps i with
  | some ps2 => (200, ps2)
  | none => (404, ps)

/-! ### Status mapping of the handlers package (service-backed handlers)

The handlers package (NewCategoryHandler / NewProductHandler) is missing
from src/; its tests in src/unnamed/part_000 pin, per operation, the status
produced for a service error. The service hands the handler an opaque Go
`error` value (the tests build them with `errors.New`), so the handler sees
only the operation it is serving and the error's message. -/

/-- Outcome a service method hands back to its handler: success with a
payload, or an opaque error carrying only a message. -/
inductive SvcOutcome (α : Type) where
  | ok (a : α)
  | err (msg : String)
deriving Repr, DecidableEq

/-- Modelled from the spec: GetAll handler status (handlers package, missing
from src/) — TestGetAllCategories pins ok → 200, and
TestGetAllCategories_ServiceError pins any error → 500. -/
def svcGetAllStatus (r : SvcOutcome (List Category)) : Nat :=
  match r with
  | .ok _ => 200
  | .err _ => 500

/-- Modelled from the spec: GetByID handler status (handlers package,
missing from src/) — a non-integer path id → 400 (TestGetCategoryByID_InvalidID),
ok → 200 (TestGetCategoryByID), any error → 404 (TestGetCategoryByID_NotFound,
error message "category not found"). -/
def svcGetByIDStatus (pathId : Option Int) (r : SvcOutcome Category) : Nat :=
  match pathId with
  | none => 400
  | some _ =>
      match r with
      | .ok _ => 200
      | .err _ => 404

/-- Modelled from the spec: Create handler status (handlers package, missing
from src/) — an undecodable body → 400 (TestCreateCategory_InvalidJSON),
ok → 201 (TestCreateCategory), any error → 400 (TestCreateCategory_ServiceError,
error message "validation error"). -/
def svcCreateStatus (body : Option Category) (r : SvcOutcome Unit) : Nat :=
  match body with
  | none => 400
  | some _ =>
      match r with
      | .ok _ => 201
      | .err _ => 400

/-- Modelled from the spec: Update handler status (handlers package, missing
from src/) — non-integer path id or undecodable body → 400
(TestUpdateCategory_InvalidID, TestUpdateCategory_InvalidJSON), ok → 200
(TestUpdateCategory), any error → 400 (TestUpdateCategory_ServiceError,
error message "update failed"). -/
def svcUpdateStatus (pathId : Option Int) (body : Option Category)
    (r : SvcOutcome Unit) : Nat :=
  match pathId, body with
  | none, _ => 400
  | some _, none => 400
  | some _, some _ =>
      match r with
      | .ok _ => 200
      | .err _ => 400

/-- Modelled from the spec: Delete handler status (handlers package, missing
from src/) — non-integer path id → 400 (TestDeleteCategory_InvalidID),
ok → 200 (TestDeleteCategory), any error → 500
(TestDeleteCategory_ServiceError, which hands the handler the error
"category not found" and asserts StatusInternalServerError). The product
handler tests (TestDeleteProduct_ServiceError, error "product not found")
pin the identical mapping. -/
def svcDeleteStatus (pathId : Option Int) (r : SvcOutcome Unit) : Nat :=
  match pathId with
  | none => 400
  | some _ =>
      match r with
      | .ok _ => 200
      | .err _ => 500

/-! ### Shared lemmas about the embedded operations -/

/-- The enrichment rule, characterised: the derived name is the name of some
matching category, or the empty string when no category matches. -/
theorem categoryNameFor_spec (cs : List Category) (cid : Int) :
    (∃ c ∈ cs, c.id = cid ∧ categoryNameFor cs cid = c.name) ∨
    ((∀ c ∈ cs, c.id ≠ cid) ∧ categoryNameFor cs cid = "") := by
  unfold categoryNameFor
  cases h : cs.find? (fun c => c.id == cid) with
  | none =>
      refine Or.inr ⟨?_, rfl⟩
      intro c hc
      simpa using List.find?_eq_none.mp h c hc
  | some c =>
      refine Or.inl ⟨c, List.mem_of_find?_eq_some h, ?_, rfl⟩
      simpa using List.find?_some h

/-- When no category has the given id, the derived name is empty. -/
theorem categoryNameFor_eq_empty (cs : List Category) (cid : Int)
    (h : ∀ c ∈ cs, c.id ≠ cid) : categoryNameFor cs cid = "" := by
  unfold categoryNameFor
  rw [List.find?_eq_none.mpr (fun c hc => by simpa using h c hc)]

/-- Replacing the first match by a record carrying the matched id leaves the
id column unchanged. -/
theorem map_id_replaceFirstCategory (cs : List Category) (t : Int)
    (u : Category) (hu : u.id = t) :
    (replaceFirstCategory cs t u).map (fun c => c.id) =
      cs.map (fun c => c.id) := by
  induction cs with
  | nil => rfl
  | cons c rest ih =>
      by_cases h : c.id = t
      · simp [replaceFirstCategory, h, hu]
      · simp [replaceFirstCategory, (by simp [h] : (c.id == t) = false), ih]

/-- Product version of `map_id_replaceFirstCategory`. -/
theorem map_id_replaceFirstProduk (ps : List Product) (t : Int)
    (u : Product) (hu : u.id = t) :
    (replaceFirstProduk ps t u).map (fun p => p.id) =
      ps.map (fun p => p.id) := by
  induction ps with
  | nil => rfl
  | cons p rest ih =>
      by_cases h : p.id = t
      · simp [replaceFirstProduk, h, hu]
      · simp [replaceFirstProduk, (by simp [h] : (p.id == t) = false), ih]

/-- After replacing the first match, looking the id up finds exactly the new
record. -/
theorem findCategory_replaceFirst (cs : List Category) (t : Int)
    (u : Category) (hu : u.id = t)
    (hany : cs.any (fun c => c.id == t) = true) :
    findCategory (replaceFirstCategory cs t u) t = some u := by
  induction cs with
  | nil => simp at hany
  | cons c rest ih =>
      by_cases h : c.id = t
      · have hrepl : replaceFirstCategory (c :: rest) t u = u :: rest := by
          simp [replaceFirstCategory, h]
        rw [hrepl]
        unfold findCategory
        exact List.find?_cons_of_pos _ (by simp [hu])
      · have hb : (c.id == t) = false := by simp [h]
        have hrepl : replaceFirstCategory (c :: rest) t u =
            c :: replaceFirstCategory rest t u := by
          simp [replaceFirstCategory, hb]
        have hany2 : rest.any (fun c => c.id == t) = true := by
          simpa [hb] using hany
        rw [hrepl]
        unfold findCategory
        rw [List.find?_cons_of_neg _ (by simp [h])]
        exact ih hany2

/-- Product version of `findCategory_replaceFirst`. -/
theorem findProduk_replaceFirst (ps : List Product) (t : Int)
    (u : Product) (hu : u.id = t)
    (hany : ps.any (fun p => p.id == t) = true) :
    findProduk (replaceFirstProduk ps t u) t = some u := by
  induction ps with
  | nil => simp at hany
  | cons p rest ih =>
      by_cases h : p.id = t
      · have hrepl : replaceFirstProduk (p :: rest) t u = u :: rest := by
          simp [replaceFirstProduk, h]
        rw [hrepl]
        unfold findProduk
        exact List.find?_cons_of_pos _ (by simp [hu])
      · have hb : (p.id == t) = false := by simp [h]
        have hrepl : replaceFirstProduk (p :: rest) t u =
            p :: replaceFirstProduk rest t u := by
          simp [replaceFirstProduk, hb]
        have hany2 : rest.any (fun p => p.id == t) = true := by
          simpa [hb] using hany
        rw [hrepl]
        unfold findProduk
        rw [List.find?_cons_of_neg _ (by simp [h])]
        exact ih hany2

/-- Records whose id differs from the updated one survive an update
untouched. -/
theorem mem_replaceFirstCategory_of_ne (cs : List Category) (t : Int)
    (u q : Category) (hq : q ∈ cs) (hne : q.id ≠ t) :
    q ∈ replaceFirstCategory cs t u := by
  induction cs with
  | nil => simp at hq
  | cons c rest ih =>
      rcases List.mem_cons.mp hq with rfl | hmem
      · simp [replaceFirstCategory, (by simp [hne] : (q.id == t) = false)]
      · by_cases h : c.id = t
        · simp only [replaceFirstCategory, (by simp [h] : (c.id == t) = true),
            if_true]
          exact List.mem_cons_of_mem _ hmem
        · simp only [replaceFirstCategory, (by simp [h] : (c.id == t) = false),
            if_false]
          exact List.mem_cons_of_mem _ (ih hmem)

/-- Product version of `mem_replaceFirstCategory_of_ne`. -/
theorem mem_replaceFirstProduk_of_ne (ps : List Product) (t : Int)
    (u q : Product) (hq : q ∈ ps) (hne : q.id ≠ t) :
    q ∈ replaceFirstProduk ps t u := by
  induction ps with
  | nil => simp at hq
  | cons p rest ih =>
      rcases List.mem_cons.mp hq with rfl | hmem
      · simp [replaceFirstProduk, (by simp [hne] : (q.id == t) = false)]
      · by_cases h : p.id = t
        · simp only [replaceFirstProduk, (by simp [h] : (p.id == t) = true),
            if_true]
          exact List.mem_cons_of_mem _ hmem
        · simp only [replaceFirstProduk, (by simp [h] : (p.id == t) = false),
            if_false]
          exact List.mem_cons_of_mem _ (ih hmem)

/-- Deletion keeps the surviving records exactly as they were, in order. -/
theorem removeFirstCategory_sublist (cs : List Category) (t : Int) :
    List.Sublist (removeFirstCategory cs t) cs := by
  induction cs with
  | nil => simp [removeFirstCategory]
  | cons c rest ih =>
      by_cases h : c.id = t
      · have hrm : removeFirstCategory (c :: rest) t = rest := by
          simp [removeFirstCategory, h]
        rw [hrm]
        exact List.sublist_cons_self c rest
      · have hrm : removeFirstCategory (c :: rest) t =
            c :: removeFirstCategory rest t := by
          simp [removeFirstCategory, (by simp [h] : (c.id == t) = false)]
        rw [hrm]
        exact ih.cons₂ c

/-- Product version of `removeFirstCategory_sublist`. -/
theorem removeFirstProduk_sublist (ps : List Product) (t : Int) :
    List.Sublist (removeFirstProduk ps t) ps := by
  induction ps with
  | nil => simp [removeFirstProduk]
  | cons p rest ih =>
      by_cases h : p.id = t
      · have hrm : removeFirstProduk (p :: rest) t = rest := by
          simp [removeFirstProduk, h]
        rw [hrm]
        exact List.sublist_cons_self p rest
      · have hrm : removeFirstProduk (p :: rest) t =
            p :: removeFirstProduk rest t := by
          simp [removeFirstProduk, (by simp [h] : (p.id == t) = false)]
        rw [hrm]
        exact ih.cons₂ p

/-- If at most one category carries the id, none is left after removing the
first match. -/
theorem find?_removeFirstCategory (cs : List Category) (i : Int)
    (hcount : cs.countP (fun c => c.id == i) ≤ 1) :
    (removeFirstCategory cs i).find? (fun c => c.id == i) = none := by
  induction cs with
  | nil => simp [removeFirstCategory]
  | cons c rest ih =>
      have hcc : List.countP (fun c => c.id == i) (c :: rest) =
          List.countP (fun c => c.id == i) rest +
            (if (c.id == i) = true then 1 else 0) :=
        List.countP_cons _ c rest
      by_cases h : c.id = i
      · rw [hcc, if_pos (by simp [h])] at hcount
        have hzero : rest.countP (fun c => c.id == i) = 0 := by omega
        have hrm : removeFirstCategory (c :: rest) i = rest := by
          simp [removeFirstCategory, h]
        rw [hrm]
        exact List.find?_eq_none.mpr (List.countP_eq_zero.mp hzero)
      · have hb : (c.id == i) = false := by simp [h]
        rw [hcc, if_neg (by simp [h])] at hcount
        have hrm : removeFirstCategory (c :: rest) i =
            c :: removeFirstCategory rest i := by
          simp [removeFirstCategory, hb]
        rw [hrm, List.find?_cons_of_neg _ (by simp [h])]
        exact ih (by omega)

/-- One more create extends the id column by n + 1. -/
theorem seqIds_succ (n : Nat) : seqIds (n + 1) = seqIds n ++ [(n : Int) + 1] := by
  simp [seqIds, List.range_succ]

/-- Sequential ids are pairwise distinct. -/
theorem seqIds_nodup (n : Nat) : (seqIds n).Nodup := by
  have hinj : Function.Injective (fun k : Nat => (k : Int) + 1) := by
    intro a b hab
    simpa using hab
  unfold seqIds
  exact @List.Nodup.map Nat Int (List.range n) (fun k => Int.ofNat k + 1)
    (fun a b hab => by simpa using hinj (by simpa using hab))
    (List.nodup_range n)

/-- Create and Update (on either collection) preserve the sequential-id
invariant. -/
theorem step_invIds (s : Store) (op : Op) (hop : op.isDelete = false)
    (h : InvIds s) : InvIds (step s op) := by
  obtain ⟨hc, hp⟩ := h
  cases op with
  | createCat b =>
      refine ⟨?_, hp⟩
      simp [step, createCategory, seqIds_succ, hc]
  | createProd b =>
      refine ⟨hc, ?_⟩
      simp [step, createProduk, seqIds_succ, hp]
  | updateCat i b =>
      let u : Category := ⟨i, b.name, b.description⟩
      by_cases hany : s.categories.any (fun c => c.id == i) = true
      · have hst : step s (.updateCat i b) =
            { s with categories := replaceFirstCategory s.categories i u } := by
          simp [step, updateCategory, hany, u]
        rw [hst]
        have hmap := map_id_replaceFirstCategory s.categories i u rfl
        have hlen : (replaceFirstCategory s.categories i u).length =
            s.categories.length := by
          have := congrArg List.length hmap
          simpa using this
        exact ⟨by simp only [hmap, hlen]; exact hc, hp⟩
      · have hst : step s (.updateCat i b) = s := by
          simp [step, updateCategory, hany]
        rw [hst]
        exact ⟨hc, hp⟩
  | updateProd i b =>
      let u : Product := ⟨i, b.name, b.price, b.stock, b.categoryID⟩
      by_cases hany : s.produk.any (fun p => p.id == i) = true
      · have hst : step s (.updateProd i b) =
            { s with produk := replaceFirstProduk s.produk i u } := by
          simp [step, updateProduk, hany, u]
        rw [hst]
        have hmap := map_id_replaceFirstProduk s.produk i u rfl
        have hlen : (replaceFirstProduk s.produk i u).length =
            s.produk.length := by
          have := congrArg List.length hmap
          simpa using this
        exact ⟨hc, by simp only [hmap, hlen]; exact hp⟩
      · have hst : step s (.updateProd i b) = s := by
          simp [step, updateProduk, hany]
        rw [hst]
        exact ⟨hc, hp⟩
  | deleteCat i => simp [Op.isDelete] at hop
  | deleteProd i => simp [Op.isDelete] at hop

/-- The sequential-id invariant holds along any delete-free run. -/
theorem foldl_invIds (ops : List Op) (s : Store)
    (hops : ∀ op ∈ ops, op.isDelete = false) (h : InvIds s) :
    InvIds (ops.foldl step s) := by
  induction ops generalizing s with
  | nil => simpa using h
  | cons op rest ih =>
      rw [List.foldl_cons]
      exact ih (step s op)
        (fun o ho => hops o (List.mem_cons_of_mem _ ho))
        (step_invIds s op (hops op (List.mem_cons_self op rest)) h)

/-! ### Claim C1 — read-time enrichment of products -/

/-- C1: every product returned by the product service's GetAll or GetByID
carries as category_name the name of a category of the current collection
whose id equals the product's category_id, and the empty string when no
category matches; in particular, whenever no category carries id 0, a
product with category_id 0 reads the empty string. -/
theorem c1_read_enrichment (cs : List Category) (ps : List Product) :
    (∀ v ∈ productGetAll cs ps,
      (∃ c ∈ cs, c.id = v.categoryID ∧ v.categoryName = c.name) ∨
      ((∀ c ∈ cs, c.id ≠ v.categoryID) ∧ v.categoryName = "")) ∧
    (∀ (i : Int) (v : ProductView), productGetByID cs ps i = some v →
      (∃ c ∈ cs, c.id = v.categoryID ∧ v.categoryName = c.name) ∨
      ((∀ c ∈ cs, c.id ≠ v.categoryID) ∧ v.categoryName = "")) ∧
    ((∀ c ∈ cs, c.id ≠ 0) → ∀ v ∈ productGetAll cs ps,
      v.categoryID = 0 → v.categoryName = "") := by
  have key : ∀ p : Product,
      (∃ c ∈ cs, c.id = (enrich cs p).categoryID ∧
        (enrich cs p).categoryName = c.name) ∨
      ((∀ c ∈ cs, c.id ≠ (enrich cs p).categoryID) ∧
        (enrich cs p).categoryName = "") := by
    intro p
    simpa [enrich] using categoryNameFor_spec cs p.categoryID
  refine ⟨?_, ?_, ?_⟩
  · intro v hv
    rcases List.mem_map.mp hv with ⟨p, hp, rfl⟩
    exact key p
  · intro i v hv
    unfold productGetByID at hv
    cases hf : findProduk ps i with
    | none => rw [hf] at hv; simp at hv
    | some p =>
        rw [hf] at hv
        simp only [Option.map_some'] at hv
        rw [← Option.some_inj.mp hv]
        exact key p
  · intro h0 v hv hcid
    rcases List.mem_map.mp hv with ⟨p, hp, rfl⟩
    show categoryNameFor cs p.categoryID = ""
    refine categoryNameFor_eq_empty cs p.categoryID ?_
    intro c hc
    have hc0 := h0 c hc
    have hp0 : p.categoryID = 0 := hcid
    rw [hp0]
    exact hc0

/-- C1 witness: the enrichment characterisation evaluated on scenario 1 of
the spec — a laptop in category 1 named Electronics. -/
theorem c1_witness :
    (∃ c ∈ [(⟨1, "Electronics", "e"⟩ : Category)],
      c.id = (⟨1, "Laptop", 15000000, 10, 1, "Electronics"⟩ : ProductView).categoryID ∧
      (⟨1, "Laptop", 15000000, 10, 1, "Electronics"⟩ : ProductView).categoryName = c.name) ∨
    ((∀ c ∈ [(⟨1, "Electronics", "e"⟩ : Category)],
      c.id ≠ (⟨1, "Laptop", 15000000, 10, 1, "Electronics"⟩ : ProductView).categoryID) ∧
      (⟨1, "Laptop", 15000000, 10, 1, "Electronics"⟩ : ProductView).categoryName = "") :=
  (c1_read_enrichment [⟨1, "Electronics", "e"⟩] [⟨1, "Laptop", 15000000, 10, 1⟩]).1
    ⟨1, "Laptop", 15000000, 10, 1, "Electronics"⟩ (by decide)

/-! ### Claim C2 — uniqueness of ids in reachable states -/

/-- C2 counterexample: the ids are NOT unique in every reachable state — the
run create A, create B, delete 1, create C reaches a store whose product
collection carries id 2 twice, because Create assigns length + 1 blindly. -/
theorem c2_counterexample :
    ((run [Op.createProd ⟨0, "A", 1000, 1, 0⟩, Op.createProd ⟨0, "B", 2000, 2, 0⟩,
        Op.deleteProd 1, Op.createProd ⟨0, "C", 3000, 3, 0⟩]).produk.map
        (fun p => p.id) = [2, 2]) ∧
    ¬ ((run [Op.createProd ⟨0, "A", 1000, 1, 0⟩, Op.createProd ⟨0, "B", 2000, 2, 0⟩,
        Op.deleteProd 1, Op.createProd ⟨0, "C", 3000, 3, 0⟩]).produk.map
        (fun p => p.id)).Nodup := by
  decide

/-- C2 (amended): in every state reachable from the empty collections by
Create and Update operations alone — no Delete — every Category.id and every
Product.id is unique within its collection; a Create that follows a Delete
can break this. -/
theorem c2_unique_ids_without_delete (ops : List Op)
    (hops : ∀ op ∈ ops, op.isDelete = false) :
    ((run ops).categories.map (fun c => c.id)).Nodup ∧
    ((run ops).produk.map (fun p => p.id)).Nodup := by
  obtain ⟨hc, hp⟩ := foldl_invIds ops ⟨[], []⟩ hops ⟨rfl, rfl⟩
  unfold run
  exact ⟨by rw [hc]; exact seqIds_nodup _, by rw [hp]; exact seqIds_nodup _⟩

/-- C2 witness: a delete-free run of one category create and one product
create keeps both id columns duplicate-free. -/
theorem c2_witness :
    ((run [Op.createCat ⟨0, "Makanan", "Produk makanan"⟩,
        Op.createProd ⟨0, "Kecap", 12000, 20, 1⟩]).categories.map
        (fun c => c.id)).Nodup ∧
    ((run [Op.createCat ⟨0, "Makanan", "Produk makanan"⟩,
        Op.createProd ⟨0, "Kecap", 12000, 20, 1⟩]).produk.map
        (fun p => p.id)).Nodup :=
  c2_unique_ids_without_delete _ (by decide)

/-! ### Claim C3 — status mapping of the service-backed handlers -/

/-- C3 counterexample: the handlers package answers a Delete whose service
error is the not-found message with 500, while GetByID with the same error
kind gets 404 and Update gets 400 — the status depends on the operation, and
a Delete on a nonexistent id yields 500, not 404. -/
theorem c3_counterexample :
    svcDeleteStatus (some 999) (SvcOutcome.err "category not found") = 500 ∧
    svcGetByIDStatus (some 999) (SvcOutcome.err "category not found") = 404 ∧
    svcUpdateStatus (some 1) (some ⟨1, "Updated Category", "Updated Description"⟩)
      (SvcOutcome.err "update failed") = 400 ∧
    (500 : Nat) ≠ 404 :=
  ⟨rfl, rfl, rfl, by decide⟩

/-- C3 (amended): the handlers package maps a service error to the HTTP
status by the operation alone, never by the error's content: GetAll errors
give 500, GetByID errors 404, Create and Update errors 400, Delete errors
500; a malformed path id or request body gives 400 throughout. -/
theorem c3_status_depends_on_operation (i : Int) (msg : String) (body : Category)
    (r : SvcOutcome Unit) (rc : SvcOutcome Category) :
    svcGetAllStatus (SvcOutcome.err msg) = 500 ∧
    svcGetByIDStatus (some i) (SvcOutcome.err msg) = 404 ∧
    svcCreateStatus (some body) (SvcOutcome.err msg) = 400 ∧
    svcUpdateStatus (some i) (some body) (SvcOutcome.err msg) = 400 ∧
    svcDeleteStatus (some i) (SvcOutcome.err msg) = 500 ∧
    svcGetByIDStatus none rc = 400 ∧
    svcCreateStatus none r = 400 ∧
    svcUpdateStatus none (some body) r = 400 ∧
    svcUpdateStatus (some i) none r = 400 ∧
    svcDeleteStatus none r = 400 :=
  ⟨rfl, rfl, rfl, rfl, rfl, rfl, rfl, rfl, rfl, rfl⟩

/-! ### Claim C4 — Create and missing required fields -/

/-- C4 counterexample: a product Create whose decoded body has an empty name
is accepted — status 201, partial record appended — instead of returning a
ValidationError and leaving the collection unchanged. -/
theorem c4_counterexample :
    createProdukHandler [] (some ⟨0, "", 12000, 20, 0⟩) =
      (201, [⟨1, "", 12000, 20, 0⟩]) ∧ (201 : Nat) ≠ 400 := by
  decide

/-- C4 (amended): Create performs no field validation at all: only a body
that fails to decode yields 400 with the collection unchanged, while every
decoded body — an empty name included — is assigned id length + 1 and
appended with status 201, for both collections. -/
theorem c4_create_never_validates_fields (ps : List Product) (b : Product)
    (cs : List Category) (bc : Category) :
    createProdukHandler ps none = (400, ps) ∧
    createProdukHandler ps (some b) =
      (201, ps ++ [{ b with id := (ps.length : Int) + 1 }]) ∧
    createCategoryHandler cs none = (400, cs) ∧
    createCategoryHandler cs (some bc) =
      (201, cs ++ [{ bc with id := (cs.length : Int) + 1 }]) :=
  ⟨rfl, rfl, rfl, rfl⟩

/-! ### Claim C5 — NotFound on absent ids -/

/-- C5: on an id absent from the collection, GetByID, Update and Delete all
answer NotFound (404) — never an error of another kind — and leave the
collection unchanged, for categories and products alike. -/
theorem c5_absent_id_notfound (cs cats : List Category) (ps : List Product)
    (i : Int) (bc : Category) (bp : Product)
    (hcs : ∀ c ∈ cs, c.id ≠ i) (hps : ∀ p ∈ ps, p.id ≠ i) :
    getCategoryByIDHandler cs i = (404, none) ∧
    updateCategoryHandler cs i (some bc) = (404, cs) ∧
    deleteCategoryHandler cs i = (404, cs) ∧
    getProdukByIDHandler cats ps i = (404, none) ∧
    updateProdukHandler ps i (some bp) = (404, ps) ∧
    deleteProdukHandler ps i = (404, ps) := by
  have hfc : findCategory cs i = none :=
    List.find?_eq_none.mpr (fun c hc => by simpa using hcs c hc)
  have hfp : findProduk ps i = none :=
    List.find?_eq_none.mpr (fun p hp => by simpa using hps p hp)
  have hac : cs.any (fun c => c.id == i) = false := by
    apply Bool.eq_false_iff.mpr
    intro htrue
    rcases List.any_eq_true.mp htrue with ⟨c, hc, hEq⟩
    exact hcs c hc (by simpa using hEq)
  have hap : ps.any (fun p => p.id == i) = false := by
    apply Bool.eq_false_iff.mpr
    intro htrue
    rcases List.any_eq_true.mp htrue with ⟨p, hp, hEq⟩
    exact hps p hp (by simpa using hEq)
  refine ⟨?_, ?_, ?_, ?_, ?_, ?_⟩
  · simp [getCategoryByIDHandler, hfc]
  · simp [updateCategoryHandler, updateCategory, hac]
  · simp [deleteCategoryHandler, deleteCategory, hac]
  · simp [getProdukByIDHandler, productGetByID, hfp]
  · simp [updateProdukHandler, updateProduk, hap]
  · simp [deleteProdukHandler, deleteProduk, hap]

/-- C5 witness: id 999 absent from a one-category and a one-product store —
all five lookups answer 404 and the collections stay as they were. -/
theorem c5_witness :
    getCategoryByIDHandler [⟨1, "Makanan", "Produk makanan"⟩] 999 = (404, none) ∧
    updateCategoryHandler [⟨1, "Makanan", "Produk makanan"⟩] 999
      (some ⟨0, "Food", "Food products"⟩) = (404, [⟨1, "Makanan", "Produk makanan"⟩]) ∧
    deleteCategoryHandler [⟨1, "Makanan", "Produk makanan"⟩] 999 =
      (404, [⟨1, "Makanan", "Produk makanan"⟩]) ∧
    getProdukByIDHandler [] [⟨1, "Indomie Godog", 3500, 10, 0⟩] 999 = (404, none) ∧
    updateProdukHandler [⟨1, "Indomie Godog", 3500, 10, 0⟩] 999
      (some ⟨0, "Indomie Goreng", 4000, 15, 0⟩) =
      (404, [⟨1, "Indomie Godog", 3500, 10, 0⟩]) ∧
    deleteProdukHandler [⟨1, "Indomie Godog", 3500, 10, 0⟩] 999 =
      (404, [⟨1, "Indomie Godog", 3500, 10, 0⟩]) :=
  c5_absent_id_notfound [⟨1, "Makanan", "Produk makanan"⟩] []
    [⟨1, "Indomie Godog", 3500, 10, 0⟩] 999 ⟨0, "Food", "Food products"⟩
    ⟨0, "Indomie Goreng", 4000, 15, 0⟩ (by decide) (by decide)

/-! ### Claim C6 — Create/GetByID round trip -/

/-- C6 counterexample: from the reachable store left by create A, create B,
delete 1 — whose single product already carries id 2 — creating C assigns
id 2 again, and GetByID on that id returns the older record B, not the
created C. -/
theorem c6_counterexample :
    (run [Op.createProd ⟨0, "A", 1000, 1, 0⟩, Op.createProd ⟨0, "B", 2000, 2, 0⟩,
      Op.deleteProd 1]).produk = [⟨2, "B", 2000, 2, 0⟩] ∧
    (createProduk [⟨2, "B", 2000, 2, 0⟩] ⟨0, "C", 3000, 3, 0⟩).2.id = 2 ∧
    productGetByID [] (createProduk [⟨2, "B", 2000, 2, 0⟩] ⟨0, "C", 3000, 3, 0⟩).1
      (createProduk [⟨2, "B", 2000, 2, 0⟩] ⟨0, "C", 3000, 3, 0⟩).2.id =
      some ⟨2, "B", 2000, 2, 0, ""⟩ ∧
    ("B" : String) ≠ "C" := by
  decide

/-- C6 (amended): provided no record of the collection already carries the id
length + 1 that Create will assign — true in particular of every store
reached without Delete — Create(X) followed by GetByID on the assigned id
returns a record equal to X in all fields except the assigned id and, for
products, the derived category_name. -/
theorem c6_create_then_get_roundtrip (cs : List Category) (ps : List Product)
    (b : Product) (cs2 : List Category) (bc : Category)
    (hps : ∀ p ∈ ps, p.id ≠ (ps.length : Int) + 1)
    (hcs2 : ∀ c ∈ cs2, c.id ≠ (cs2.length : Int) + 1) :
    productGetByID cs (createProduk ps b).1 (createProduk ps b).2.id =
      some ⟨(ps.length : Int) + 1, b.name, b.price, b.stock, b.categoryID,
        categoryNameFor cs b.categoryID⟩ ∧
    findCategory (createCategory cs2 bc).1 (createCategory cs2 bc).2.id =
      some ⟨(cs2.length : Int) + 1, bc.name, bc.description⟩ := by
  constructor
  · have hnone : ps.find? (fun p => p.id == (ps.length : Int) + 1) = none :=
      List.find?_eq_none.mpr (fun p hp => by simpa using hps p hp)
    unfold productGetByID findProduk createProduk
    rw [List.find?_append, hnone]
    rw [List.find?_cons_of_pos _ (by simp)]
    simp [enrich]
  · have hnone : cs2.find? (fun c => c.id == (cs2.length : Int) + 1) = none :=
      List.find?_eq_none.mpr (fun c hc => by simpa using hcs2 c hc)
    unfold findCategory createCategory
    rw [List.find?_append, hnone]
    rw [List.find?_cons_of_pos _ (by simp)]
    rw [Option.none_or]

/-- C6 witness: the round trip evaluated on empty stores — create Electronics
then read it back; create a laptop referencing category 1 then read it back
enriched. -/
theorem c6_witness :
    productGetByID [⟨1, "Electronics", "e"⟩]
      (createProduk [] ⟨0, "Laptop", 15000000, 10, 1⟩).1
      (createProduk [] ⟨0, "Laptop", 15000000, 10, 1⟩).2.id =
      some ⟨1, "Laptop", 15000000, 10, 1,
        categoryNameFor [⟨1, "Electronics", "e"⟩] 1⟩ ∧
    findCategory (createCategory [] ⟨0, "Electronics", "e"⟩).1
      (createCategory [] ⟨0, "Electronics", "e"⟩).2.id =
      some ⟨1, "Electronics", "e"⟩ :=
  c6_create_then_get_roundtrip [⟨1, "Electronics", "e"⟩] []
    ⟨0, "Laptop", 15000000, 10, 1⟩ [] ⟨0, "Electronics", "e"⟩
    (by decide) (by decide)

/-! ### Claim C7 — deleting a category and the products referencing it -/

/-- C7 counterexample: in the reachable store holding two categories that
both carry id 2 (create A, create B, delete 1, create C) plus a product
referencing category 2, deleting category 2 removes only the first match, so
the subsequent read still shows category_name C, not the empty string. -/
theorem c7_counterexample :
    (run [Op.createCat ⟨0, "A", "a"⟩, Op.createCat ⟨0, "B", "b"⟩, Op.deleteCat 1,
      Op.createCat ⟨0, "C", "c"⟩, Op.createProd ⟨0, "X", 5, 5, 2⟩]).categories =
      [⟨2, "B", "b"⟩, ⟨2, "C", "c"⟩] ∧
    step (run [Op.createCat ⟨0, "A", "a"⟩, Op.createCat ⟨0, "B", "b"⟩,
        Op.deleteCat 1, Op.createCat ⟨0, "C", "c"⟩,
        Op.createProd ⟨0, "X", 5, 5, 2⟩]) (Op.deleteCat 2) =
      ⟨[⟨2, "C", "c"⟩], [⟨1, "X", 5, 5, 2⟩]⟩ ∧
    productGetAll [⟨2, "C", "c"⟩] [⟨1, "X", 5, 5, 2⟩] =
      [⟨1, "X", 5, 5, 2, "C"⟩] ∧
    ("C" : String) ≠ "" := by
  decide

/-- C7 (amended): deleting a category never touches the product collection;
and provided at most one category carries the deleted id c — as under unique
ids — every subsequent product read (GetAll or GetByID) shows the empty
category_name for products whose category_id equals c. -/
theorem c7_delete_category_frame (s : Store) (c : Int) :
    (step s (Op.deleteCat c)).produk = s.produk ∧
    (s.categories.countP (fun x => x.id == c) ≤ 1 →
      (∀ v ∈ productGetAll (step s (Op.deleteCat c)).categories
          (step s (Op.deleteCat c)).produk,
        v.categoryID = c → v.categoryName = "") ∧
      (∀ (i : Int) (v : ProductView),
        productGetByID (step s (Op.deleteCat c)).categories
          (step s (Op.deleteCat c)).produk i = some v →
        v.categoryID = c → v.categoryName = "")) := by
  have hframe : (step s (Op.deleteCat c)).produk = s.produk := by
    by_cases hany : s.categories.any (fun x => x.id == c) = true
    · simp [step, deleteCategory, hany]
    · simp [step, deleteCategory, hany]
  refine ⟨hframe, fun hcount => ?_⟩
  have hname : categoryNameFor (step s (Op.deleteCat c)).categories c = "" := by
    by_cases hany : s.categories.any (fun x => x.id == c) = true
    · have hcats : (step s (Op.deleteCat c)).categories =
          removeFirstCategory s.categories c := by
        simp [step, deleteCategory, hany]
      rw [hcats]
      unfold categoryNameFor
      rw [find?_removeFirstCategory s.categories c hcount]
    · have hcats : (step s (Op.deleteCat c)).categories = s.categories := by
        simp [step, deleteCategory, hany]
      rw [hcats]
      unfold categoryNameFor
      have hfnone : s.categories.find? (fun x => x.id == c) = none := by
        cases hfind : s.categories.find? (fun x => x.id == c) with
        | none => rfl
        | some x =>
            exact absurd (List.any_eq_true.mpr
              ⟨x, List.mem_of_find?_eq_some hfind, List.find?_some hfind⟩) hany
      rw [hfnone]
  constructor
  · intro v hv hcid
    rcases List.mem_map.mp hv with ⟨p, hp, rfl⟩
    show categoryNameFor (step s (Op.deleteCat c)).categories p.categoryID = ""
    have hpc : p.categoryID = c := hcid
    rw [hpc]
    exact hname
  · intro i v hv hcid
    unfold productGetByID at hv
    cases hf : findProduk (step s (Op.deleteCat c)).produk i with
    | none => rw [hf] at hv; simp at hv
    | some p =>
        rw [hf] at hv
        simp only [Option.map_some'] at hv
        rw [← Option.some_inj.mp hv] at hcid ⊢
        show categoryNameFor (step s (Op.deleteCat c)).categories p.categoryID = ""
        have hpc : p.categoryID = c := hcid
        rw [hpc]
        exact hname

/-- C7 witness: scenario 3 of the spec — delete the only category while a
product references it: the product survives untouched and subsequently reads
an empty category_name. -/
theorem c7_witness :
    (step ⟨[⟨1, "Electronics", "e"⟩], [⟨1, "Laptop", 15000000, 10, 1⟩]⟩
      (Op.deleteCat 1)).produk = [⟨1, "Laptop", 15000000, 10, 1⟩] ∧
    (∀ v ∈ productGetAll
        (step ⟨[⟨1, "Electronics", "e"⟩], [⟨1, "Laptop", 15000000, 10, 1⟩]⟩
          (Op.deleteCat 1)).categories
        (step ⟨[⟨1, "Electronics", "e"⟩], [⟨1, "Laptop", 15000000, 10, 1⟩]⟩
          (Op.deleteCat 1)).produk,
      v.categoryID = 1 → v.categoryName = "") :=
  ⟨(c7_delete_category_frame
      ⟨[⟨1, "Electronics", "e"⟩], [⟨1, "Laptop", 15000000, 10, 1⟩]⟩ 1).1,
   ((c7_delete_category_frame
      ⟨[⟨1, "Electronics", "e"⟩], [⟨1, "Laptop", 15000000, 10, 1⟩]⟩ 1).2
      (by decide)).1⟩

/-! ### Claim C8 — Update overwrites all fields except the immutable id -/

/-- C8: a successful Update replaces every field except the id of the
targeted record with the supplied values, the updated record is what the
target id now resolves to, and no operation changes the id of a surviving
record: Update preserves the id column, Create appends to it, and Delete
removes whole records, leaving the rest untouched. -/
theorem c8_update_overwrites_ids_immutable (cs : List Category)
    (ps : List Product) (t : Int) (bc : Category) (bp : Product) :
    (cs.any (fun c => c.id == t) = true →
      ∃ cs2, updateCategory cs t bc = some (cs2, ⟨t, bc.name, bc.description⟩) ∧
        cs2.map (fun c => c.id) = cs.map (fun c => c.id) ∧
        findCategory cs2 t = some ⟨t, bc.name, bc.description⟩ ∧
        ∀ c ∈ cs, c.id ≠ t → c ∈ cs2) ∧
    (ps.any (fun p => p.id == t) = true →
      ∃ ps2, updateProduk ps t bp =
          some (ps2, ⟨t, bp.name, bp.price, bp.stock, bp.categoryID⟩) ∧
        ps2.map (fun p => p.id) = ps.map (fun p => p.id) ∧
        findProduk ps2 t = some ⟨t, bp.name, bp.price, bp.stock, bp.categoryID⟩ ∧
        ∀ p ∈ ps, p.id ≠ t → p ∈ ps2) ∧
    ((createCategory cs bc).1.map (fun c => c.id) =
      cs.map (fun c => c.id) ++ [(cs.length : Int) + 1]) ∧
    ((createProduk ps bp).1.map (fun p => p.id) =
      ps.map (fun p => p.id) ++ [(ps.length : Int) + 1]) ∧
    (∀ cs2, deleteCategory cs t = some cs2 → List.Sublist cs2 cs) ∧
    (∀ ps2, deleteProduk ps t = some ps2 → List.Sublist ps2 ps) := by
  refine ⟨?_, ?_, ?_, ?_, ?_, ?_⟩
  · intro hany
    refine ⟨replaceFirstCategory cs t ⟨t, bc.name, bc.description⟩, ?_, ?_, ?_, ?_⟩
    · simp [updateCategory, hany]
    · exact map_id_replaceFirstCategory cs t _ rfl
    · exact findCategory_replaceFirst cs t _ rfl hany
    · exact fun c hc hne => mem_replaceFirstCategory_of_ne cs t _ c hc hne
  · intro hany
    refine ⟨replaceFirstProduk ps t ⟨t, bp.name, bp.price, bp.stock, bp.categoryID⟩,
      ?_, ?_, ?_, ?_⟩
    · simp [updateProduk, hany]
    · exact map_id_replaceFirstProduk ps t _ rfl
    · exact findProduk_replaceFirst ps t _ rfl hany
    · exact fun p hp hne => mem_replaceFirstProduk_of_ne ps t _ p hp hne
  · simp [createCategory]
  · simp [createProduk]
  · intro cs2 h
    unfold deleteCategory at h
    split at h
    · rw [← Option.some_inj.mp h]
      exact removeFirstCategory_sublist cs t
    · exact absurd h (by simp)
  · intro ps2 h
    unfold deleteProduk at h
    split at h
    · rw [← Option.some_inj.mp h]
      exact removeFirstProduk_sublist ps t
    · exact absurd h (by simp)

/-- C8 witness: the update characterisation evaluated on the singleton
stores of the repository tests — Makanan renamed to Food, Indomie Godog
updated to Indomie Goreng, both keeping id 1. -/
theorem c8_witness :
    (∃ cs2, updateCategory [⟨1, "Makanan", "Produk makanan"⟩] 1
        ⟨0, "Food", "Food products"⟩ = some (cs2, ⟨1, "Food", "Food products"⟩) ∧
      cs2.map (fun c => c.id) =
        [(⟨1, "Makanan", "Produk makanan"⟩ : Category)].map (fun c => c.id) ∧
      findCategory cs2 1 = some ⟨1, "Food", "Food products"⟩ ∧
      ∀ c ∈ [(⟨1, "Makanan", "Produk makanan"⟩ : Category)], c.id ≠ 1 → c ∈ cs2) ∧
    (∃ ps2, updateProduk [⟨1, "Indomie Godog", 3500, 10, 0⟩] 1
        ⟨0, "Indomie Goreng", 4000, 15, 0⟩ =
        some (ps2, ⟨1, "Indomie Goreng", 4000, 15, 0⟩) ∧
      ps2.map (fun p => p.id) =
        [(⟨1, "Indomie Godog", 3500, 10, 0⟩ : Product)].map (fun p => p.id) ∧
      findProduk ps2 1 = some ⟨1, "Indomie Goreng", 4000, 15, 0⟩ ∧
      ∀ p ∈ [(⟨1, "Indomie Godog", 3500, 10, 0⟩ : Product)], p.id ≠ 1 → p ∈ ps2) :=
  ⟨(c8_update_overwrites_ids_immutable [⟨1, "Makanan", "Produk makanan"⟩]
      [⟨1, "Indomie Godog", 3500, 10, 0⟩] 1 ⟨0, "Food", "Food products"⟩
      ⟨0, "Indomie Goreng", 4000, 15, 0⟩).1 (by decide),
   (c8_update_overwrites_ids_immutable [⟨1, "Makanan", "Produk makanan"⟩]
      [⟨1, "Indomie Godog", 3500, 10, 0⟩] 1 ⟨0, "Food", "Food products"⟩
      ⟨0, "Indomie Goreng", 4000, 15, 0⟩).2.1 (by decide)⟩

/-! ### Claim C9 — Create assigns length + 1 -/

/-- C9: Create assigns the new record the id equal to the current number of
records plus one, whatever ids are present, for both collections, and
appends it; consequently, after the reachable run create A, create B,
delete 1 — whose surviving product carries id 2 — a further Create assigns
id 2 again, duplicating an existing id. -/
theorem c9_create_assigns_length_plus_one :
    (∀ (ps : List Product) (b : Product),
      (createProduk ps b).2.id = (ps.length : Int) + 1 ∧
      (createProduk ps b).1 = ps ++ [(createProduk ps b).2]) ∧
    (∀ (cs : List Category) (b : Category),
      (createCategory cs b).2.id = (cs.length : Int) + 1 ∧
      (createCategory cs b).1 = cs ++ [(createCategory cs b).2]) ∧
    ((run [Op.createProd ⟨0, "A", 1000, 1, 0⟩, Op.createProd ⟨0, "B", 2000, 2, 0⟩,
        Op.deleteProd 1]).produk.map (fun p => p.id) = [2] ∧
      (createProduk (run [Op.createProd ⟨0, "A", 1000, 1, 0⟩,
        Op.createProd ⟨0, "B", 2000, 2, 0⟩, Op.deleteProd 1]).produk
        ⟨0, "C", 3000, 3, 0⟩).2.id = 2) := by
  exact ⟨fun ps b => ⟨rfl, rfl⟩, fun cs b => ⟨rfl, rfl⟩, by decide⟩

/-! ### Claim C10 — Update targets the URL id, not the body id -/

/-- C10: the record an Update targets and the id it reports are determined
by the id in the URL path alone — replacing the body's id field with any
value changes nothing, and a successful update's returned record always
carries the URL id — for both collections. -/
theorem c10_update_ignores_body_id (ps : List Product) (cs : List Category)
    (t j k : Int) (bp : Product) (bc : Category) :
    updateProduk ps t bp = updateProduk ps t { bp with id := j } ∧
    updateCategory cs t bc = updateCategory cs t { bc with id := k } ∧
    (∀ r, updateProduk ps t bp = some r → r.2.id = t) ∧
    (∀ r, updateCategory cs t bc = some r → r.2.id = t) := by
  refine ⟨rfl, rfl, ?_, ?_⟩
  · intro r hr
    unfold updateProduk at hr
    split at hr
    · rw [← Option.some_inj.mp hr]
    · exact absurd hr (by simp)
  · intro r hr
    unfold updateCategory at hr
    split at hr
    · rw [← Option.some_inj.mp hr]
    · exact absurd hr (by simp)

/-- C10 witness: a PUT on product 1 whose body carries id 0 and one whose
body carries id 7 produce the same result, and the updated record reports
id 1, the URL id. -/
theorem c10_witness :
    updateProduk [⟨1, "Indomie Godog", 3500, 10, 0⟩] 1
      ⟨0, "Indomie Goreng", 4000, 15, 0⟩ =
      updateProduk [⟨1, "Indomie Godog", 3500, 10, 0⟩] 1
        ⟨7, "Indomie Goreng", 4000, 15, 0⟩ ∧
    (([(⟨1, "Indomie Goreng", 4000, 15, 0⟩ : Product)],
      (⟨1, "Indomie Goreng", 4000, 15, 0⟩ : Product)) :
        List Product × Product).2.id = 1 :=
  ⟨(c10_update_ignores_body_id [⟨1, "Indomie Godog", 3500, 10, 0⟩] [] 1 7 0
      ⟨0, "Indomie Goreng", 4000, 15, 0⟩ ⟨0, "x", "y"⟩).1,
   (c10_update_ignores_body_id [⟨1, "Indomie Godog", 3500, 10, 0⟩] [] 1 7 0
      ⟨0, "Indomie Goreng", 4000, 15, 0⟩ ⟨0, "x", "y"⟩).2.2.1
      ([⟨1, "Indomie Goreng", 4000, 15, 0⟩], ⟨1, "Indomie Goreng", 4000, 15, 0⟩)
      (by decide)⟩

end KasirAPI
